import Mathlib

/-!
Verification of the tuneup configuration store (src/lib.rs).

The store keeps a YAML-like document value (serde_yaml::Value) as its root,
plus an optional file path.  We embed the value tree, the error enum, the
Config struct and its five operations (new, with_file, add, get,
read_from_file, write_to_file) as Lean functions.

Modelling conventions:
- serde_yaml::Value numbers are modelled as Int (floats are not needed by
  any claim).
- serde_yaml::Mapping (a linked hash map over Value keys) is modelled as an
  association list; insert replaces in place, lookup scans from the front.
- A Rust panic (the source unwraps in Config::add) is modelled by returning
  none from an Option-valued embedding.
- The filesystem is an association list from path to file content, passed
  explicitly; the external Document Codec (serde_yaml) is a parameter:
  a per-value codec for add and get, and document-level decode and encode
  functions for read_from_file and write_to_file.
-/

/-- serde_yaml::Value: the external document value tree. -/
inductive Value : Type where
  | null : Value
  | bool : Bool → Value
  | number : Int → Value
  | str : String → Value
  | sequence : List Value → Value
  | mapping : List (Value × Value) → Value

mutual

/-- Structural equality on Value, the Eq impl used by Mapping keys. -/
def Value.beq : Value → Value → Bool
  | Value.null, Value.null => true
  | Value.bool a, Value.bool b => a == b
  | Value.number a, Value.number b => a == b
  | Value.str a, Value.str b => a == b
  | Value.sequence a, Value.sequence b => Value.beqSeq a b
  | Value.mapping a, Value.mapping b => Value.beqMap a b
  | _, _ => false

/-- Elementwise equality of sequences of values. -/
def Value.beqSeq : List Value → List Value → Bool
  | [], [] => true
  | a :: as, b :: bs => Value.beq a b && Value.beqSeq as bs
  | _, _ => false

/-- Entrywise equality of mapping entry lists. -/
def Value.beqMap : List (Value × Value) → List (Value × Value) → Bool
  | [], [] => true
  | (k1, v1) :: as, (k2, v2) :: bs =>
      Value.beq k1 k2 && Value.beq v1 v2 && Value.beqMap as bs
  | _, _ => false

end

/-- Value::as_mapping (and the shape test behind as_mapping_mut): some
contents when the value is the Mapping variant, none otherwise. -/
def Value.as_mapping : Value → Option (List (Value × Value))
  | Value.mapping m => some m
  | _ => none

/-- Mapping lookup (linked-hash-map get): first entry with an equal key. -/
def mapGet (m : List (Value × Value)) (k : Value) : Option Value :=
  match m with
  | [] => none
  | (k', v') :: rest => if Value.beq k' k then some v' else mapGet rest k

/-- Mapping insert (linked-hash-map insert): replaces the value of an
existing key in place, otherwise appends the new entry at the back. -/
def mapInsert (m : List (Value × Value)) (k v : Value) : List (Value × Value) :=
  match m with
  | [] => [(k, v)]
  | (k', v') :: rest =>
      if Value.beq k' k then (k, v) :: rest else (k', v') :: mapInsert rest k v

/-- Value::get with a &str index: a key lookup when the value is a Mapping
(the index is wrapped as Value::String), none on every other variant. -/
def Value.get (v : Value) (name : String) : Option Value :=
  match v with
  | Value.mapping m => mapGet m (Value.str name)
  | _ => none

/-- The error enum of src/lib.rs, spelling kept from the source. -/
inductive Error : Type where
  | SerializationFailed : String → Error
  | ConfigDoesNotEsixt : Error
  | DeserializationFailed : String → Error
  | FileOpenFailed : String → Error
  | FileDoesNotSet : Error
deriving DecidableEq

/-- The Config struct: a root value and an optional backing file path. -/
structure Config where
  root : Value
  file : Option String

/-- Config::new: an empty Mapping root and no file. -/
def Config.new : Config :=
  { root := Value.mapping [], file := none }

/-- The derived Default impl on Config: Value::default() is Value::Null and
Option::default() is None. -/
def Config.default : Config :=
  { root := Value.null, file := none }

/-- Config::with_file: consuming builder that sets the file path. -/
def Config.with_file (c : Config) (path : String) : Config :=
  { c with file := some path }

/-- The private Config::file helper: the configured path, or FileDoesNotSet. -/
def Config.filePath (c : Config) : Except Error String :=
  match c.file with
  | some p => Except.ok p
  | none => Except.error Error.FileDoesNotSet

/-- The per-value part of the external Document Codec for one Rust type T:
serde_yaml::to_value and serde_yaml::from_value, each fallible with a
message string. -/
structure Codec (T : Type) where
  encode_value : T → Except String Value
  decode_value : Value → Except String T

/-- Config::add.  The source runs
self.root.as_mapping_mut().unwrap().insert(to_value(name).unwrap(),
to_value(value).unwrap()) and then returns Ok(()).  A none result models a
panic of one of the unwraps: as_mapping_mut is none when root is not a
Mapping, and to_value(value) fails when the codec cannot represent the
value.  to_value(name) for a &str always succeeds with Value::String(name),
so it is not a panic source.  On the non-panic path the entry is inserted
and the function returns Ok(()). -/
def Config.add {T : Type} (codec : Codec T) (c : Config) (name : String) (value : T) :
    Option (Config × Except Error Unit) :=
  match c.root.as_mapping with
  | some m =>
      match codec.encode_value value with
      | Except.ok ev =>
          some ({ c with root := Value.mapping (mapInsert m (Value.str name) ev) },
                Except.ok ())
      | Except.error _ => none
  | none => none

/-- Config::get.  Looks the name up in root via Value::get; absent keys give
ConfigDoesNotEsixt, a failing from_value gives DeserializationFailed.  The
receiver is &mut self but the body never assigns, so the embedding threads
the config through unchanged. -/
def Config.get {T : Type} (codec : Codec T) (c : Config) (name : String) :
    Config × Except Error T :=
  match c.root.get name with
  | some s =>
      match codec.decode_value s with
      | Except.ok v => (c, Except.ok v)
      | Except.error e => (c, Except.error (Error.DeserializationFailed e))
  | none => (c, Except.error Error.ConfigDoesNotEsixt)

/-- Filesystem read: the content stored under a path, none when absent. -/
def fsRead (fs : List (String × String)) (p : String) : Option String :=
  match fs with
  | [] => none
  | (q, d) :: rest => if q = p then some d else fsRead rest p

/-- Filesystem update: store content under a path, replacing in place. -/
def fsUpdate (fs : List (String × String)) (p c : String) : List (String × String) :=
  match fs with
  | [] => [(p, c)]
  | (q, d) :: rest => if q = p then (p, c) :: rest else (q, d) :: fsUpdate rest p c

/-- Config::read_from_file.  File::open fails when the path is absent
(modelled with a fixed message); otherwise serde_yaml::from_reader decodes
the content into a Value of any shape, and on success the root is replaced
wholesale by the decoded value.  decodeDoc is the external document
decoder. -/
def Config.read_from_file (fs : List (String × String))
    (decodeDoc : String → Except String Value) (c : Config) :
    Config × Except Error Unit :=
  match c.filePath with
  | Except.error e => (c, Except.error e)
  | Except.ok p =>
      match fsRead fs p with
      | none => (c, Except.error (Error.FileOpenFailed "No such file or directory"))
      | some content =>
          match decodeDoc content with
          | Except.ok m => ({ c with root := m }, Except.ok ())
          | Except.error e => (c, Except.error (Error.DeserializationFailed e))

/-- Config::write_to_file.  The source opens the file with
OpenOptions read(true).write(true).create(true) and WITHOUT truncate, so an
absent file is created empty, and writing positions at the start of the
existing content: the encoded bytes overwrite a prefix and any prior
content beyond the encoded length survives.  encodeDoc is the external
document encoder (serde_yaml::to_writer); its failure is wrapped as
SerializationFailed after the file has already been opened (and hence
created when absent).  The debug println in the source has no modelled
effect.  Returns the new filesystem, the unchanged config and the result. -/
def Config.write_to_file (fs : List (String × String))
    (encodeDoc : Value → Except String String) (c : Config) :
    List (String × String) × Config × Except Error Unit :=
  match c.filePath with
  | Except.error e => (fs, c, Except.error e)
  | Except.ok p =>
      let old := (fsRead fs p).getD ""
      match encodeDoc c.root with
      | Except.error e =>
          (fsUpdate fs p old, c, Except.error (Error.SerializationFailed e))
      | Except.ok enc =>
          (fsUpdate fs p (enc ++ old.drop enc.length), c, Except.ok ())

/-- A concrete per-value codec for Nat, used to instantiate theorems: a Nat
encodes as a YAML number and decodes back from a nonnegative number. -/
def natCodec : Codec Nat where
  encode_value := fun n => Except.ok (Value.number (Int.ofNat n))
  decode_value := fun v =>
    match v with
    | Value.number n => if 0 ≤ n then Except.ok n.toNat else Except.error "invalid value"
    | _ => Except.error "invalid type"

/-- A concrete per-value codec whose encoder always fails, standing for a
Rust type whose Serialize impl returns an error. -/
def failCodec : Codec Unit where
  encode_value := fun _ => Except.error "cannot represent"
  decode_value := fun _ => Except.error "cannot represent"

/-- A second always-failing per-value codec, standing for a value the target
format rejects. -/
def nanCodec : Codec Unit where
  encode_value := fun _ => Except.error "NaN not representable"
  decode_value := fun _ => Except.error "NaN not representable"

/-- Modelled from the spec: the external Document Codec decoder
(serde_yaml::from_reader targeting Value), which parses a byte stream into
a Value of any top-level shape and rejects input that does not parse as a
well-formed document.  Only the behaviour needed by the claims is modelled:
the well-formed scalar document 1234567 decodes to the number 1234567, the
mapping document a: 1 decodes to a one-entry mapping, anything else is
rejected as malformed. -/
def yamlDecodeDoc (s : String) : Except String Value :=
  if s = "1234567" then Except.ok (Value.number 1234567)
  else if s = "a: 1" then
    Except.ok (Value.mapping [(Value.str "a", Value.number 1)])
  else Except.error "invalid type"

/-- Modelled from the spec: the external Document Codec encoder
(serde_yaml::to_writer).  Only the encoding of the empty mapping root is
needed by the claims; every other value is out of the modelled fragment. -/
def yamlEncodeDoc (v : Value) : Except String String :=
  match v with
  | Value.mapping [] => Except.ok "---\n\x7b\x7d"
  | _ => Except.error "out of modelled fragment"

/-- Looking a string key up right after inserting it under the same string
key finds the inserted value, wherever the key sat in the mapping. -/
theorem mapGet_mapInsert_str (m : List (Value × Value)) (s : String) (v : Value) :
    mapGet (mapInsert m (Value.str s) v) (Value.str s) = some v := by
  induction m with
  | nil => simp [mapInsert, mapGet, Value.beq]
  | cons hd tl ih =>
      obtain ⟨k', v'⟩ := hd
      by_cases h : Value.beq k' (Value.str s) = true
      · simp [mapInsert, h, mapGet, Value.beq]
      · simp [mapInsert, h, mapGet, ih]

/-- C1, counterexample: the claim says every input to add yields Ok or one
of the five Error variants as a Result value.  At this concrete input (a
fresh store and a value the codec cannot represent) the source panics on
to_value(value).unwrap(), modelled as none: no Result is returned. -/
theorem add_panics_without_result : Config.add failCodec Config.new "k" () = none := rfl

/-- C1, amended: add returns Ok(()) whenever the root is a Mapping and the
codec can represent the value, and panics, returning no Result at all,
exactly when the root is not a Mapping or the codec cannot represent the
value; whenever add does return, the Result is Ok.  (get, read_from_file
and write_to_file are total functions of the embedding and always return a
Result.) -/
theorem add_panic_characterization {T : Type} (codec : Codec T) (c : Config)
    (n : String) (v : T) :
    (Config.add codec c n v = none ↔
      c.root.as_mapping = none ∨ ∃ e, codec.encode_value v = Except.error e) ∧
    (∀ r, Config.add codec c n v = some r → r.2 = Except.ok ()) := by
  constructor
  · cases hm : c.root.as_mapping with
    | none => simp [Config.add, hm]
    | some m =>
        cases he : codec.encode_value v with
        | ok ev => simp [Config.add, hm, he]
        | error e => simp [Config.add, hm, he]
  · intro r hr
    cases hm : c.root.as_mapping with
    | none => simp [Config.add, hm] at hr
    | some m =>
        cases he : codec.encode_value v with
        | ok ev =>
            simp [Config.add, hm, he] at hr
            simp [← hr]
        | error e => simp [Config.add, hm, he] at hr

/-- Witness for C1: the panic characterization applied at a concrete input
whose codec rejects the value. -/
theorem add_panic_characterization_witness :
    Config.add nanCodec Config.new "k" () = none :=
  (add_panic_characterization nanCodec Config.new "k" ()).1.mpr
    (Or.inr ⟨"NaN not representable", rfl⟩)

/-- C2, counterexample: the claim says add returns Err(SerializationFailed)
when the codec cannot represent the value.  At this concrete input the
source instead panics on to_value(value).unwrap(), modelled as none: no
Err is ever produced. -/
theorem add_serialization_failure_panics :
    Config.add nanCodec Config.new "x" () = none := rfl

/-- C2, amended: with a Mapping root, add returns Ok(()) and inserts the
encoded entry when the codec can represent the value; when the codec
cannot represent it, add panics instead of returning
Err(SerializationFailed).  The panic preempts the insertion, so no partial
mutation is ever observable. -/
theorem add_encode_cases {T : Type} (codec : Codec T) (c : Config)
    (m : List (Value × Value)) (n : String) (v : T)
    (h : c.root = Value.mapping m) :
    (∀ ev, codec.encode_value v = Except.ok ev →
      Config.add codec c n v =
        some ({ c with root := Value.mapping (mapInsert m (Value.str n) ev) },
              Except.ok ())) ∧
    (∀ e, codec.encode_value v = Except.error e → Config.add codec c n v = none) := by
  constructor <;> intro x hx <;> simp [Config.add, h, Value.as_mapping, hx]

/-- Witness for C2: the encode case split applied at a fresh store and a
representable Nat value. -/
theorem add_encode_cases_witness :
    Config.add natCodec Config.new "k" 7 =
      some ({ root := Value.mapping [(Value.str "k", Value.number 7)], file := none },
            Except.ok ()) :=
  (add_encode_cases natCodec Config.new [] "k" 7 rfl).1 (Value.number 7) rfl

/-- C10: the derived Default impl is not equivalent to new: it leaves the
root as Value::Null rather than an empty Mapping (file is None in both), so
a default store violates the root-is-Mapping invariant, and add on it
panics (modelled as none) for every codec, name and value. -/
theorem default_config_differs_from_new :
    Config.default.root = Value.null ∧ Config.default.file = none ∧
    Config.new.root = Value.mapping [] ∧ Config.new.file = none ∧
    Config.default ≠ Config.new ∧
    Config.default.root.as_mapping = none ∧
    (∀ (T : Type) (codec : Codec T) (n : String) (v : T),
      Config.add codec Config.default n v = none) := by
  refine ⟨rfl, rfl, rfl, rfl, ?_, rfl, fun T codec n v => rfl⟩
  intro h
  exact Value.noConfusion (congrArg Config.root h)

/-- C3, counterexample: the claim says a file holding exactly the bytes
1234567 makes read_from_file return Err(DeserializationFailed).  The source
deserializes into Value, which accepts any well-formed document including a
bare scalar, so the call returns Ok and the root becomes the number
1234567. -/
theorem read_scalar_document_succeeds :
    Config.read_from_file [("cfg.yaml", "1234567")] yamlDecodeDoc
        (Config.new.with_file "cfg.yaml") =
      ({ root := Value.number 1234567, file := some "cfg.yaml" }, Except.ok ()) := rfl

/-- C3, amended: with a configured path and a readable file,
read_from_file returns Err(DeserializationFailed) exactly when the decoder
fails to parse the content; a well-formed document of any top-level shape,
mapping or not, decodes into a Value and the call returns Ok, replacing the
root with that value. -/
theorem read_deserialization_cases (fs : List (String × String))
    (dec : String → Except String Value) (c : Config) (p content : String)
    (hp : c.file = some p) (hc : fsRead fs p = some content) :
    (∀ e, dec content = Except.error e →
      Config.read_from_file fs dec c =
        (c, Except.error (Error.DeserializationFailed e))) ∧
    (∀ v, dec content = Except.ok v →
      Config.read_from_file fs dec c = ({ c with root := v }, Except.ok ())) := by
  constructor <;> intro x hx <;>
    simp [Config.read_from_file, Config.filePath, hp, hc, hx]

/-- Witness for C3: the deserialization case split applied to a file whose
content does not parse. -/
theorem read_deserialization_cases_witness :
    Config.read_from_file [("cfg.yaml", "oops")] yamlDecodeDoc
        (Config.new.with_file "cfg.yaml") =
      (Config.new.with_file "cfg.yaml",
       Except.error (Error.DeserializationFailed "invalid type")) :=
  (read_deserialization_cases [("cfg.yaml", "oops")] yamlDecodeDoc
    (Config.new.with_file "cfg.yaml") "cfg.yaml" "oops" rfl rfl).1 "invalid type" rfl

/-- C4, counterexample: the claim says the root is always a Mapping and
every operation preserves this.  Starting from a store whose root is a
Mapping, a successful read_from_file of the scalar document 1234567 leaves
a root that is not a Mapping. -/
theorem read_breaks_root_mapping_invariant :
    (Config.read_from_file [("cfg.yaml", "1234567")] yamlDecodeDoc
        (Config.new.with_file "cfg.yaml")).1.root.as_mapping = none := rfl

/-- C4, amended: the root is an empty Mapping after new; with a Mapping
root, add preserves the Mapping shape whenever it returns, get and
write_to_file leave the config unchanged, and read_from_file leaves the
config unchanged on every failure; on success read_from_file sets the root
to the decoded document, which is a Mapping only when the document decodes
to a mapping. -/
theorem root_mapping_invariant_cases {T : Type} (codec : Codec T)
    (fs : List (String × String)) (dec : String → Except String Value)
    (enc : Value → Except String String) (c : Config) (m : List (Value × Value))
    (n : String) (v : T) (h : c.root = Value.mapping m) :
    (Config.new.root = Value.mapping []) ∧
    (∀ c' r, Config.add codec c n v = some (c', r) →
      ∃ m', c'.root = Value.mapping m') ∧
    ((Config.get codec c n).1 = c) ∧
    ((Config.write_to_file fs enc c).2.1 = c) ∧
    (∀ e, (Config.read_from_file fs dec c).2 = Except.error e →
      (Config.read_from_file fs dec c).1 = c) ∧
    (∀ p content m', c.file = some p → fsRead fs p = some content →
      dec content = Except.ok (Value.mapping m') →
      (Config.read_from_file fs dec c).1.root = Value.mapping m') := by
  refine ⟨rfl, ?_, ?_, ?_, ?_, ?_⟩
  · intro c' r hr
    cases he : codec.encode_value v with
    | ok ev =>
        simp [Config.add, h, Value.as_mapping, he] at hr
        exact ⟨mapInsert m (Value.str n) ev, by simp [← hr.1]⟩
    | error e => simp [Config.add, h, Value.as_mapping, he] at hr
  · cases hg : (Value.mapping m).get n with
    | none => simp [Config.get, h, hg]
    | some s =>
        cases hd : codec.decode_value s with
        | ok w => simp [Config.get, h, hg, hd]
        | error e => simp [Config.get, h, hg, hd]
  · cases hf : c.file with
    | none => simp [Config.write_to_file, Config.filePath, hf]
    | some p =>
        cases he : enc c.root with
        | ok s => simp [Config.write_to_file, Config.filePath, hf, he]
        | error e => simp [Config.write_to_file, Config.filePath, hf, he]
  · intro e he
    cases hf : c.file with
    | none => simp [Config.read_from_file, Config.filePath, hf]
    | some p =>
        cases hc : fsRead fs p with
        | none => simp [Config.read_from_file, Config.filePath, hf, hc]
        | some content =>
            cases hd : dec content with
            | ok w => simp [Config.read_from_file, Config.filePath, hf, hc, hd] at he
            | error e' => simp [Config.read_from_file, Config.filePath, hf, hc, hd]
  · intro p content m' hp hc hd
    simp [Config.read_from_file, Config.filePath, hp, hc, hd]

/-- Witness for C4: the invariant case split applied at a fresh store,
extracting that get leaves the store unchanged. -/
theorem root_mapping_invariant_cases_witness :
    (Config.get natCodec Config.new "a").1 = Config.new :=
  (root_mapping_invariant_cases natCodec [] yamlDecodeDoc yamlEncodeDoc
    Config.new [] "a" 0 rfl).2.2.1

/-- C5: round-trip law.  With a Mapping root and a codec that encodes the
value and decodes that encoding back to it, add under key k followed by
get of k returns Ok of the stored value. -/
theorem add_get_roundtrip {T : Type} (codec : Codec T) (c : Config)
    (m : List (Value × Value)) (k : String) (v : T) (ev : Value)
    (hroot : c.root = Value.mapping m)
    (henc : codec.encode_value v = Except.ok ev)
    (hdec : codec.decode_value ev = Except.ok v) :
    ∀ c' r, Config.add codec c k v = some (c', r) →
      r = Except.ok () ∧ Config.get codec c' k = (c', Except.ok v) := by
  intro c' r hr
  simp [Config.add, hroot, Value.as_mapping, henc] at hr
  obtain ⟨hc', hr'⟩ := hr
  subst hc'
  refine ⟨hr'.symm, ?_⟩
  simp [Config.get, Value.get, mapGet_mapInsert_str, hdec]

/-- Witness for C5: the round-trip law applied at a fresh store, the Nat
codec and the value 7. -/
theorem add_get_roundtrip_witness :
    Config.get natCodec
        { root := Value.mapping [(Value.str "k", Value.number 7)], file := none } "k" =
      ({ root := Value.mapping [(Value.str "k", Value.number 7)], file := none },
       Except.ok 7) :=
  (add_get_roundtrip natCodec Config.new [] "k" 7 (Value.number 7) rfl rfl rfl
    { root := Value.mapping [(Value.str "k", Value.number 7)], file := none }
    (Except.ok ()) rfl).2

/-- C6: overwrite semantics.  With a Mapping root and a codec encoding both
values and decoding the second encoding back, add k v1 then add k v2 then
get k yields Ok v2 and, when the values differ, never Ok v1: the second
insertion replaces the first. -/
theorem add_overwrite_last_write_wins {T : Type} (codec : Codec T) (c : Config)
    (m : List (Value × Value)) (k : String) (v1 v2 : T) (e1 e2 : Value)
    (hroot : c.root = Value.mapping m)
    (henc1 : codec.encode_value v1 = Except.ok e1)
    (henc2 : codec.encode_value v2 = Except.ok e2)
    (hdec2 : codec.decode_value e2 = Except.ok v2) :
    ∀ c1 r1 c2 r2, Config.add codec c k v1 = some (c1, r1) →
      Config.add codec c1 k v2 = some (c2, r2) →
      (Config.get codec c2 k).2 = Except.ok v2 ∧
      (v1 ≠ v2 → (Config.get codec c2 k).2 ≠ Except.ok v1) := by
  intro c1 r1 c2 r2 h1 h2
  simp [Config.add, hroot, Value.as_mapping, henc1] at h1
  obtain ⟨hc1, _⟩ := h1
  subst hc1
  simp [Config.add, Value.as_mapping, henc2] at h2
  obtain ⟨hc2, _⟩ := h2
  have hget : (Config.get codec c2 k).2 = Except.ok v2 := by
    subst hc2
    simp [Config.get, Value.get, mapGet_mapInsert_str, hdec2]
  refine ⟨hget, fun hne habs => hne ?_⟩
  rw [hget] at habs
  exact (Except.ok.inj habs).symm

/-- Witness for C6: overwrite applied at a fresh store, storing 1 then 2
under the same key and reading back 2. -/
theorem add_overwrite_last_write_wins_witness :
    (Config.get natCodec
        { root := Value.mapping [(Value.str "k", Value.number 2)], file := none } "k").2 =
      Except.ok 2 :=
  (add_overwrite_last_write_wins natCodec Config.new [] "k" 1 2
    (Value.number 1) (Value.number 2) rfl rfl rfl rfl
    { root := Value.mapping [(Value.str "k", Value.number 1)], file := none }
    (Except.ok ())
    { root := Value.mapping [(Value.str "k", Value.number 2)], file := none }
    (Except.ok ()) rfl rfl).1

/-- C7: with a Mapping root, get leaves the config unchanged, returns
Err(ConfigDoesNotEsixt) exactly when the key is absent from the root
mapping, and returns Err(DeserializationFailed) with the decoder message
when the key is present but its stored value does not decode to T. -/
theorem get_error_spec {T : Type} (codec : Codec T) (c : Config)
    (m : List (Value × Value)) (name : String)
    (h : c.root = Value.mapping m) :
    ((Config.get codec c name).1 = c) ∧
    ((Config.get codec c name).2 = Except.error Error.ConfigDoesNotEsixt ↔
      mapGet m (Value.str name) = none) ∧
    (∀ s e, mapGet m (Value.str name) = some s →
      codec.decode_value s = Except.error e →
      (Config.get codec c name).2 = Except.error (Error.DeserializationFailed e)) := by
  refine ⟨?_, ?_, ?_⟩
  · cases hg : mapGet m (Value.str name) with
    | none => simp [Config.get, Value.get, h, hg]
    | some s =>
        cases hd : codec.decode_value s with
        | ok w => simp [Config.get, Value.get, h, hg, hd]
        | error e => simp [Config.get, Value.get, h, hg, hd]
  · cases hg : mapGet m (Value.str name) with
    | none => simp [Config.get, Value.get, h, hg]
    | some s =>
        cases hd : codec.decode_value s with
        | ok w => simp [Config.get, Value.get, h, hg, hd]
        | error e => simp [Config.get, Value.get, h, hg, hd]
  · intro s e hs he
    simp [Config.get, Value.get, h, hs, he]

/-- Witness for C7: the get specification applied at a store holding a
string under key a, read back at type Nat, which fails to decode. -/
theorem get_error_spec_witness :
    (Config.get natCodec
        { root := Value.mapping [(Value.str "a", Value.str "x")], file := none } "a").2 =
      Except.error (Error.DeserializationFailed "invalid type") :=
  (get_error_spec natCodec
    { root := Value.mapping [(Value.str "a", Value.str "x")], file := none }
    [(Value.str "a", Value.str "x")] "a" rfl).2.2 (Value.str "x") "invalid type" rfl rfl

/-- C8: read_from_file is atomic on the in-memory state.  On success the
root is replaced wholesale by the decoded document and the file path is
kept; on any failure (no file set, open failure, decode failure) the
config is left exactly as it was. -/
theorem read_from_file_atomic (fs : List (String × String))
    (dec : String → Except String Value) (c : Config) :
    ((Config.read_from_file fs dec c).2 = Except.ok () →
      ∃ p content v, c.file = some p ∧ fsRead fs p = some content ∧
        dec content = Except.ok v ∧
        (Config.read_from_file fs dec c).1 = { root := v, file := c.file }) ∧
    ((Config.read_from_file fs dec c).2 ≠ Except.ok () →
      (Config.read_from_file fs dec c).1 = c) := by
  cases hf : c.file with
  | none => simp [Config.read_from_file, Config.filePath, hf]
  | some p =>
      cases hc : fsRead fs p with
      | none => simp [Config.read_from_file, Config.filePath, hf, hc]
      | some content =>
          cases hd : dec content with
          | ok w =>
              refine ⟨fun _ => ⟨p, content, w, rfl, hc, hd, ?_⟩, fun hne => ?_⟩
              · simp [Config.read_from_file, Config.filePath, hf, hc, hd]
              · exact absurd (by simp [Config.read_from_file, Config.filePath, hf, hc, hd]) hne
          | error e => simp [Config.read_from_file, Config.filePath, hf, hc, hd]

/-- Witness for C8: atomicity applied at a store with no configured file,
whose read_from_file fails with FileDoesNotSet and changes nothing. -/
theorem read_from_file_atomic_witness :
    (Config.read_from_file [] yamlDecodeDoc Config.new).1 = Config.new :=
  (read_from_file_atomic [] yamlDecodeDoc Config.new).2 (fun h => Except.noConfusion h)

/-- C9: the claim (and the spec) say write_to_file opens with truncate, so
that after success the file content is exactly the encoding of the root.
The source opens with read, write and create but without truncate: at this
concrete input (an existing sixteen-byte file, an empty-mapping root whose
encoding is six bytes) the call succeeds, leaves the config unchanged, but
the file keeps ten stale trailing bytes after the encoding. -/
theorem write_to_file_keeps_stale_tail :
    Config.write_to_file [("cfg.yaml", "aaaaaaaaaaaaaaaa")] yamlEncodeDoc
        (Config.new.with_file "cfg.yaml") =
      ([("cfg.yaml", "---\n\x7b\x7daaaaaaaaaa")],
       Config.new.with_file "cfg.yaml", Except.ok ()) := rfl
